import Mathlib

/-
Verification development for the MemeAssembly compiler core: the
function-structure analyzer (functions.c), the comparison-label analyzer
(comparisons.c) and the translator (translator.c) are shallowly embedded
below, and the claims C1..C10 about them are settled as theorems.

Conventions of the embedding:
  - the command stream is a `List parsedCommand` (the `commandsArray`);
  - a diagnostic emitted through `printSemanticError` /
    `printSemanticErrorWithExtraLineNumber` is modelled as a pair of the
    message and the list of line numbers passed with it, in call order;
  - the static `commandList` table is an external collaborator of the core
    (it is only declared `extern` in translator.c), so the translator takes
    it as an explicit argument `tbl : Nat -> command`;
  - an out-of-bounds array read is modelled by `Option`: a function whose C
    original would read past the end of `commandsArray` returns `none` there.
-/

/-- Mirrors `struct parsedCommand` of the commands header: opcode, the
parameter strings (`MAX_PARAMETER_COUNT = 2`, unused slots absent), the
pointer indicator, the source line number (a C `int`) and the emit flag
`translate` (a C `uint8_t`, 1 = emit). -/
structure parsedCommand where
  opcode : Nat
  parameters : List String
  isPointer : Nat
  lineNum : Int
  translate : Nat
deriving DecidableEq, Inhabited

/-- Mirrors `struct command` of the commands header; the analysis-function
pointer is omitted (it is not representable and the core never calls it
through the table). -/
structure command where
  pattern : String
  usedParameters : Nat
  allowedParamTypes : List Nat
  translationPattern : String
deriving DecidableEq, Inhabited

/-- Mirrors `struct function` of functions.h: name, declaration line and the
number of body commands recorded by `parseFunction`. -/
structure function where
  name : String
  definedInLine : Int
  numberOfCommands : Nat
deriving DecidableEq, Inhabited

/-- A diagnostic: the message together with the line numbers it was emitted
with, in the order they are passed to the logger. -/
abbrev Diag := String × List Int

def floatingMsg : String := "Statement does not belong to any function"

def expectedRetMsg : String := "Expected a return statement, but got a new function definition"

def noRetMsg : String := "No return statement found"

def dupFuncMsg : String := "Duplicate function definition"

def noMainMsg : String := "An executable cannot be created if no main-function exists"

/-- The scanning loop of `parseFunction` (functions.c): starting behind the
function declaration it walks the remaining commands (`tail`), keeping the
relative index of the current command in `index` and the relative index of
the last return statement seen so far in `fEnd` (0 while none was seen).
On a new declaration opcode it stops, emitting
`Expected a return statement, but got a new function definition` at that
declaration's line when no return was seen yet; an opcode in
`(d, d + 3]` records a return; the stream end stops the scan. -/
def scanBody (d : Nat) : List parsedCommand → Nat → Nat → Nat × List Diag
  | [], _, fEnd => (fEnd, [])
  | c :: rest, index, fEnd =>
    if c.opcode == d then
      (fEnd, if fEnd == 0 then [(expectedRetMsg, [c.lineNum])] else [])
    else if d < c.opcode && c.opcode ≤ d + 3 then
      scanBody d rest (index + 1) index
    else
      scanBody d rest (index + 1) fEnd

/-- `parseFunction` of functions.c, for the declaration command
`functionStart` whose following commands are `tail`: scans for the last
return, emits `No return statement found` at the function's own line when
none was found, and records `numberOfCommands` as the relative index of the
last return (0 when none). -/
def parseFunction (d : Nat) (functionStart : parsedCommand)
    (tail : List parsedCommand) : function × List Diag :=
  let s := scanBody d tail 1 0
  (⟨functionStart.parameters.getD 0 "", functionStart.lineNum, s.1⟩,
   s.2 ++ (if s.1 == 0 then [(noRetMsg, [functionStart.lineNum])] else []))

/-- The command-stream walk of `checkFunctionValidity` (functions.c), written
on the suffix of the stream that the cursor `commandArrayIndex` points to.
Between functions every command whose opcode is not the declaration opcode
gets `Statement does not belong to any function` at its line; at a
declaration the function is parsed and the cursor advances by
`numberOfCommands + 1`, i.e. the walk continues on `rest.drop
numberOfCommands`. Returns the parsed functions and the diagnostics in
emission order. -/
def cfvLoop (d : Nat) : List parsedCommand → List function × List Diag
  | [] => ([], [])
  | c :: rest =>
    if c.opcode == d then
      let p := parseFunction d c rest
      let nxt := cfvLoop d (rest.drop p.1.numberOfCommands)
      (p.1 :: nxt.1, p.2 ++ nxt.2)
    else
      let nxt := cfvLoop d rest
      (nxt.1, (floatingMsg, [c.lineNum]) :: nxt.2)
termination_by l => l.length
decreasing_by
  · simp; omega
  · simp

/-- The duplicate-name check of `checkFunctionValidity`: for every pair
`i < j` of parsed functions with byte-wise equal names, emit
`Duplicate function definition` carrying the later line first and the
earlier line second, in the order of the two nested loops. -/
def dupDiags : List function → List Diag
  | [] => []
  | f :: rest =>
    (rest.filter (fun g => g.name == f.name)).map
      (fun g => (dupFuncMsg, [g.definedInLine, f.definedInLine]))
      ++ dupDiags rest

/-- Modelled from the spec: the compile mode enum of the CompileState
(spec section 3.4); the enum itself is declared in a header that is not part
of src/. Only `executable` matters to the core. -/
inductive compileModeT where
  | executable | objectFile
deriving DecidableEq, Inhabited

/-- `checkFunctionValidity` of functions.c (Linux build, so the main symbol
is `main`): the stream walk, then the duplicate-name check, then the
missing-`main` check for executables, with the diagnostics of the three
phases concatenated in emission order. -/
def checkFunctionValidity (d : Nat) (mode : compileModeT)
    (l : List parsedCommand) : List Diag :=
  let r := cfvLoop d l
  r.2 ++ dupDiags r.1 ++
    (if mode == compileModeT.executable && !(r.1.any (fun f => f.name == "main"))
     then [(noMainMsg, [1])] else [])

/- Concrete streams used to refute C1 and C2. -/

/-- A declaration, a return, then one trailing command before the stream end:
the input on which claim C1 fails. -/
def exC1 : List parsedCommand :=
  [⟨0, ["f"], 0, 1, 1⟩, ⟨1, [], 0, 2, 1⟩, ⟨5, [], 0, 3, 1⟩]

/-- A declaration, one non-return command, then a second declaration with its
return: the input on which claim C2 fails. -/
def exC2 : List parsedCommand :=
  [⟨0, ["f"], 0, 1, 1⟩, ⟨5, [], 0, 2, 1⟩, ⟨0, ["g"], 0, 3, 1⟩, ⟨1, [], 0, 4, 1⟩]

/-- Predicate for the return family relative to declaration opcode `d`:
the C condition `opcode > d && opcode <= d + 3`. -/
def isRet (d : Nat) (c : parsedCommand) : Prop := d < c.opcode ∧ c.opcode ≤ d + 3

instance (d : Nat) (c : parsedCommand) : Decidable (isRet d c) := by
  unfold isRet; infer_instance

/-- Scanning a region with no declaration and no return leaves `fEnd`
untouched and emits nothing. -/
theorem scanBody_stop (d : Nat) (l : List parsedCommand)
    (h : ∀ c ∈ l, c.opcode ≠ d ∧ ¬ isRet d c) :
    ∀ i f, scanBody d l i f = (f, []) := by
  induction l with
  | nil => intro i f; rfl
  | cons c rest ih =>
    intro i f
    obtain ⟨h1, h2⟩ := h c (List.mem_cons_self ..)
    simp only [scanBody]
    rw [if_neg (by simpa using h1), if_neg (by simpa [isRet] using h2)]
    exact ih (fun x hx => h x (List.mem_cons_of_mem _ hx)) _ _

/-- Scanning a body whose last return is `ret` (no declaration opcode before
it, nothing of the return family and no declaration after it) records the
relative index of `ret` and emits nothing. -/
theorem scanBody_lastRet (d : Nat) (ret : parsedCommand) (l2 : List parsedCommand)
    (hret : isRet d ret)
    (h2 : ∀ c ∈ l2, c.opcode ≠ d ∧ ¬ isRet d c) :
    ∀ (l1 : List parsedCommand), (∀ c ∈ l1, c.opcode ≠ d) →
    ∀ i f, scanBody d (l1 ++ ret :: l2) i f = (i + l1.length, []) := by
  intro l1
  induction l1 with
  | nil =>
    intro _ i f
    have hne : ret.opcode ≠ d := by have := hret.1; omega
    simp only [List.nil_append, scanBody]
    rw [if_neg (by simpa using hne), if_pos (by simpa [isRet] using hret)]
    rw [scanBody_stop d l2 h2]
    simp
  | cons c rest ih =>
    intro h1 i f
    simp only [List.cons_append, scanBody, List.append_eq]
    rw [if_neg (by simpa using h1 c (List.mem_cons_self ..))]
    by_cases hc : isRet d c
    · rw [if_pos (by simpa [isRet] using hc)]
      rw [ih (fun x hx => h1 x (List.mem_cons_of_mem _ hx))]
      simp; omega
    · rw [if_neg (by simpa [isRet] using hc)]
      rw [ih (fun x hx => h1 x (List.mem_cons_of_mem _ hx))]
      simp; omega

/-- Scanning a body with no return that runs into a new declaration `c2`
keeps `fEnd = 0` and emits exactly the
`Expected a return statement, but got a new function definition` diagnostic
at the new declaration's line. -/
theorem scanBody_noRet_decl (d : Nat) (c2 : parsedCommand) (l2 : List parsedCommand)
    (hc2 : c2.opcode = d) :
    ∀ l1, (∀ c ∈ l1, c.opcode ≠ d ∧ ¬ isRet d c) →
    ∀ i, scanBody d (l1 ++ c2 :: l2) i 0 = (0, [(expectedRetMsg, [c2.lineNum])]) := by
  intro l1
  induction l1 with
  | nil =>
    intro _ i
    simp only [List.nil_append, scanBody]
    rw [if_pos (by simpa using hc2)]
    simp
  | cons c rest ih =>
    intro h1 i
    obtain ⟨ha, hb⟩ := h1 c (List.mem_cons_self ..)
    simp only [List.cons_append, scanBody, List.append_eq]
    rw [if_neg (by simpa using ha), if_neg (by simpa [isRet] using hb)]
    exact ih (fun x hx => h1 x (List.mem_cons_of_mem _ hx)) _

/-- One unfolding of the `checkFunctionValidity` walk at a declaration. -/
theorem cfvLoop_cons_decl (d : Nat) (c : parsedCommand) (rest : List parsedCommand)
    (h : c.opcode = d) :
    cfvLoop d (c :: rest) =
      ((parseFunction d c rest).1 ::
         (cfvLoop d (rest.drop (parseFunction d c rest).1.numberOfCommands)).1,
       (parseFunction d c rest).2 ++
         (cfvLoop d (rest.drop (parseFunction d c rest).1.numberOfCommands)).2) := by
  simp only [cfvLoop]
  rw [if_pos (by simpa using h)]

/-- One unfolding of the `checkFunctionValidity` walk at a non-declaration:
the command is flagged as not belonging to any function. -/
theorem cfvLoop_cons_nondecl (d : Nat) (c : parsedCommand) (rest : List parsedCommand)
    (h : c.opcode ≠ d) :
    cfvLoop d (c :: rest) =
      ((cfvLoop d rest).1, (floatingMsg, [c.lineNum]) :: (cfvLoop d rest).2) := by
  simp only [cfvLoop]
  rw [if_neg (by simpa using h)]

/-- On a region without declarations the walk flags every command. -/
theorem cfvLoop_all_nondecl (d : Nat) (l : List parsedCommand)
    (h : ∀ c ∈ l, c.opcode ≠ d) :
    cfvLoop d l = ([], l.map (fun c => (floatingMsg, [c.lineNum]))) := by
  induction l with
  | nil => simp [cfvLoop]
  | cons c rest ih =>
    rw [cfvLoop_cons_nondecl d c rest (h c (List.mem_cons_self ..)),
        ih (fun x hx => h x (List.mem_cons_of_mem _ hx))]
    simp

/-- Skipping a declaration-free prefix: each of its commands is flagged, then
the walk continues on the remainder. -/
theorem cfvLoop_append_nondecl (d : Nat) (l1 l2 : List parsedCommand)
    (h : ∀ c ∈ l1, c.opcode ≠ d) :
    cfvLoop d (l1 ++ l2) =
      ((cfvLoop d l2).1,
       l1.map (fun c => (floatingMsg, [c.lineNum])) ++ (cfvLoop d l2).2) := by
  induction l1 with
  | nil => simp
  | cons c rest ih =>
    rw [List.cons_append, cfvLoop_cons_nondecl d c (rest ++ l2) (h c (List.mem_cons_self ..)),
        ih (fun x hx => h x (List.mem_cons_of_mem _ hx))]
    simp

/-- Claim C1 is false on the code: in the stream
`[declaration "f"@1, return@2, opcode-5 command@3]` the command at index 2
appears after the (last) return of `f` and before the end of the stream, yet
`parseFunction` records `numberOfCommands = 1` (the trailing command is not
counted) and `checkFunctionValidity` emits
`Statement does not belong to any function` at its line 3. -/
theorem C1_counterexample :
    (cfvLoop 0 exC1).1 = [⟨"f", 1, 1⟩] ∧
    (floatingMsg, [3]) ∈ checkFunctionValidity 0 compileModeT.objectFile exC1 := by
  constructor <;>
    simp [checkFunctionValidity, cfvLoop, parseFunction, scanBody, dupDiags, exC1]

/-- Scanning a region with no declaration and no return that runs into a
new declaration after a return was already recorded (`f` is nonzero) leaves
`fEnd` untouched and emits nothing: the stop at a declaration only
diagnoses a missing return when none was seen. -/
theorem scanBody_stop_decl (d : Nat) (d2 : parsedCommand) (r : List parsedCommand)
    (hd2 : d2.opcode = d) :
    ∀ l2, (∀ c ∈ l2, c.opcode ≠ d ∧ ¬ isRet d c) →
    ∀ i f, f ≠ 0 → scanBody d (l2 ++ d2 :: r) i f = (f, []) := by
  intro l2
  induction l2 with
  | nil =>
    intro _ i f hf
    simp only [List.nil_append, scanBody]
    rw [if_pos (by simpa using hd2), if_neg (by simpa using hf)]
  | cons c rest ih =>
    intro h1 i f hf
    obtain ⟨ha, hb⟩ := h1 c (List.mem_cons_self ..)
    simp only [List.cons_append, scanBody, List.append_eq]
    rw [if_neg (by simpa using ha), if_neg (by simpa [isRet] using hb)]
    exact ih (fun x hx => h1 x (List.mem_cons_of_mem _ hx)) _ _ hf

/-- Scanning a body whose last return is `ret`, followed by a return-free,
declaration-free region and then the next declaration `d2`: the scan stops
at `d2`, records the relative index of `ret`, and emits nothing (the
recorded index is nonzero because the scan starts at a positive index). -/
theorem scanBody_lastRet_decl (d : Nat) (ret d2 : parsedCommand)
    (l2 r : List parsedCommand)
    (hret : isRet d ret)
    (h2 : ∀ c ∈ l2, c.opcode ≠ d ∧ ¬ isRet d c)
    (hd2 : d2.opcode = d) :
    ∀ (l1 : List parsedCommand), (∀ c ∈ l1, c.opcode ≠ d) →
    ∀ i f, 0 < i →
      scanBody d (l1 ++ ret :: (l2 ++ d2 :: r)) i f = (i + l1.length, []) := by
  intro l1
  induction l1 with
  | nil =>
    intro _ i f hi
    have hne : ret.opcode ≠ d := by have := hret.1; omega
    simp only [List.nil_append, scanBody]
    rw [if_neg (by simpa using hne), if_pos (by simpa [isRet] using hret)]
    rw [scanBody_stop_decl d d2 r hd2 l2 h2 (i + 1) i (by omega)]
    simp
  | cons c rest ih =>
    intro h1 i f hi
    simp only [List.cons_append, scanBody, List.append_eq]
    rw [if_neg (by simpa using h1 c (List.mem_cons_self ..))]
    by_cases hc : isRet d c
    · rw [if_pos (by simpa [isRet] using hc)]
      rw [ih (fun x hx => h1 x (List.mem_cons_of_mem _ hx)) (i + 1) i (by omega)]
      simp; omega
    · rw [if_neg (by simpa [isRet] using hc)]
      rw [ih (fun x hx => h1 x (List.mem_cons_of_mem _ hx)) (i + 1) f (by omega)]
      simp; omega

/-- The walk at a declaration whose body scan recorded the last return at
relative index `1 + body1.length` with no diagnostics: the parsed function
carries that body length, and the walk resumes right after the last return,
on `S`. -/
theorem cfvLoop_decl_lastRet (decl ret : parsedCommand)
    (body1 S : List parsedCommand)
    (hdecl : decl.opcode = 0)
    (hscan : scanBody 0 (body1 ++ ret :: S) 1 0 = (1 + body1.length, [])) :
    (cfvLoop 0 (decl :: (body1 ++ ret :: S))).1.head? =
      some ⟨decl.parameters.getD 0 "", decl.lineNum, 1 + body1.length⟩ ∧
    (cfvLoop 0 (decl :: (body1 ++ ret :: S))).2 = (cfvLoop 0 S).2 := by
  have hp : parseFunction 0 decl (body1 ++ ret :: S) =
      (⟨decl.parameters.getD 0 "", decl.lineNum, 1 + body1.length⟩, []) := by
    simp [parseFunction, hscan]
  have hdrop : (body1 ++ ret :: S).drop (1 + body1.length) = S := by
    have h : body1 ++ ret :: S = (body1 ++ [ret]) ++ S := by simp
    rw [h]
    have hlen : (body1 ++ [ret]).length = 1 + body1.length := by simp; omega
    rw [← hlen, List.drop_left]
  have hloop := cfvLoop_cons_decl 0 decl (body1 ++ ret :: S) hdecl
  rw [hp] at hloop
  simp only at hloop
  rw [hdrop] at hloop
  rw [hloop]
  exact ⟨rfl, rfl⟩

/-- Claim C1, amended: a command lying after a return of a function and
before the next function-declaration opcode (or the stream end) is counted
in `numberOfCommands` only when the return family occurs again at or after
its position before that declaration; the function body ends at the *last*
return, commands after it are not counted, and each of them is flagged with
`Statement does not belong to any function`. Here `body1` (arbitrary
declaration-free commands, possibly containing returns) is followed by the
last return `ret`, then by `body2` (no declarations, no returns), and then
by `tail`, which is either empty (the dead code runs to the stream end) or
starts with the next function declaration: the recorded body length is
`body1.length + 1` and every command of `body2` is flagged. -/
theorem C1_amended_lastReturn (decl ret : parsedCommand)
    (body1 body2 tail : List parsedCommand) (mode : compileModeT)
    (hdecl : decl.opcode = 0)
    (hb1 : ∀ c ∈ body1, c.opcode ≠ 0)
    (hret : isRet 0 ret)
    (hb2 : ∀ c ∈ body2, c.opcode ≠ 0 ∧ ¬ isRet 0 c)
    (htail : tail = [] ∨ ∃ d2 r, tail = d2 :: r ∧ d2.opcode = 0) :
    (cfvLoop 0 (decl :: (body1 ++ ret :: (body2 ++ tail)))).1.head? =
      some ⟨decl.parameters.getD 0 "", decl.lineNum, body1.length + 1⟩ ∧
    ∀ c ∈ body2, (floatingMsg, [c.lineNum]) ∈
      checkFunctionValidity 0 mode (decl :: (body1 ++ ret :: (body2 ++ tail))) := by
  have hscan : scanBody 0 (body1 ++ ret :: (body2 ++ tail)) 1 0 =
      (1 + body1.length, []) := by
    rcases htail with rfl | ⟨d2, r, rfl, hd2⟩
    · rw [List.append_nil]
      exact scanBody_lastRet 0 ret body2 hret hb2 body1 hb1 1 0
    · exact scanBody_lastRet_decl 0 ret d2 body2 r hret hb2 hd2 body1 hb1 1 0
        (by omega)
  obtain ⟨hhead, hdiags⟩ :=
    cfvLoop_decl_lastRet decl ret body1 (body2 ++ tail) hdecl hscan
  constructor
  · rw [hhead]
    simp [Nat.add_comm]
  · intro c hc
    unfold checkFunctionValidity
    apply List.mem_append_left
    apply List.mem_append_left
    rw [hdiags]
    have heq : (cfvLoop 0 (body2 ++ tail)).2 =
        body2.map (fun c => (floatingMsg, [c.lineNum])) ++ (cfvLoop 0 tail).2 := by
      rw [cfvLoop_append_nondecl 0 body2 tail (fun x hx => (hb2 x hx).1)]
    rw [heq]
    exact List.mem_append_left _ (List.mem_map_of_mem _ hc)

/-- A stream where the dead code after the last return of `f` is terminated
by the next declaration `g` instead of the stream end. -/
def exC1b : List parsedCommand :=
  [⟨0, ["f"], 0, 1, 1⟩, ⟨1, [], 0, 2, 1⟩, ⟨5, [], 0, 3, 1⟩,
   ⟨0, ["g"], 0, 4, 1⟩, ⟨1, [], 0, 5, 1⟩]

/-- Witness for the amended claim C1, at the concrete stream of
`C1_counterexample` (dead code up to the stream end) and at `exC1b` (dead
code up to the next function declaration). -/
theorem C1_witness :
    ((cfvLoop 0 exC1).1.head? = some ⟨"f", 1, 1⟩ ∧
      ∀ c ∈ [(⟨5, [], 0, 3, 1⟩ : parsedCommand)], (floatingMsg, [c.lineNum]) ∈
        checkFunctionValidity 0 compileModeT.objectFile exC1) ∧
    ((cfvLoop 0 exC1b).1.head? = some ⟨"f", 1, 1⟩ ∧
      ∀ c ∈ [(⟨5, [], 0, 3, 1⟩ : parsedCommand)], (floatingMsg, [c.lineNum]) ∈
        checkFunctionValidity 0 compileModeT.objectFile exC1b) := by
  constructor
  · have h := C1_amended_lastReturn ⟨0, ["f"], 0, 1, 1⟩ ⟨1, [], 0, 2, 1⟩ []
      [⟨5, [], 0, 3, 1⟩] [] compileModeT.objectFile rfl (by simp) (by simp [isRet])
      (by simp [isRet]) (Or.inl rfl)
    simpa [exC1] using h
  · have h := C1_amended_lastReturn ⟨0, ["f"], 0, 1, 1⟩ ⟨1, [], 0, 2, 1⟩ []
      [⟨5, [], 0, 3, 1⟩] [⟨0, ["g"], 0, 4, 1⟩, ⟨1, [], 0, 5, 1⟩]
      compileModeT.objectFile rfl (by simp) (by simp [isRet]) (by simp [isRet])
      (Or.inr ⟨⟨0, ["g"], 0, 4, 1⟩, [⟨1, [], 0, 5, 1⟩], rfl, rfl⟩)
    simpa [exC1b] using h

/-- Claim C2 is false on the code: in the stream
`[declaration "f"@1, opcode-5 command@2, declaration "g"@3, return@4]` the
second declaration is met after one scanned command and before any return;
the error is emitted at line 3, but the recorded body length is
`functionEndIndex = 0`, not the one command scanned. -/
theorem C2_counterexample :
    (cfvLoop 0 exC2).1.head? = some ⟨"f", 1, 0⟩ ∧
    (cfvLoop 0 exC2).2 =
      [(expectedRetMsg, [3]), (noRetMsg, [1]), (floatingMsg, [2])] := by
  constructor <;> simp [cfvLoop, parseFunction, scanBody, exC2]

/-- Claim C2, amended: when a new declaration is met before any return, the
`Expected a return statement, but got a new function definition` diagnostic
is emitted at the new declaration's line, `No return statement found` is
additionally emitted at the function's own line, and the function is
terminated with recorded body length 0 (the value of `functionEndIndex`),
regardless of how many commands were scanned. -/
theorem C2_bodyLengthZero (decl decl2 : parsedCommand)
    (body rest : List parsedCommand)
    (hdecl : decl.opcode = 0) (hdecl2 : decl2.opcode = 0)
    (hb : ∀ c ∈ body, c.opcode ≠ 0 ∧ ¬ isRet 0 c) :
    (cfvLoop 0 (decl :: (body ++ decl2 :: rest))).1.head? =
      some ⟨decl.parameters.getD 0 "", decl.lineNum, 0⟩ ∧
    ∃ t, (cfvLoop 0 (decl :: (body ++ decl2 :: rest))).2 =
      (expectedRetMsg, [decl2.lineNum]) :: (noRetMsg, [decl.lineNum]) :: t := by
  have hscan : scanBody 0 (body ++ decl2 :: rest) 1 0 =
      (0, [(expectedRetMsg, [decl2.lineNum])]) :=
    scanBody_noRet_decl 0 decl2 rest hdecl2 body hb 1
  have hp : parseFunction 0 decl (body ++ decl2 :: rest) =
      (⟨decl.parameters.getD 0 "", decl.lineNum, 0⟩,
       [(expectedRetMsg, [decl2.lineNum]), (noRetMsg, [decl.lineNum])]) := by
    simp [parseFunction, hscan]
  have hloop := cfvLoop_cons_decl 0 decl (body ++ decl2 :: rest) hdecl
  rw [hp] at hloop
  simp only [List.drop_zero] at hloop
  rw [hloop]
  exact ⟨rfl, (cfvLoop 0 (body ++ decl2 :: rest)).2, by simp⟩

/-- Witness for the amended claim C2 at the concrete stream of
`C2_counterexample`. -/
theorem C2_witness :
    (cfvLoop 0 exC2).1.head? = some ⟨"f", 1, 0⟩ ∧
    ∃ t, (cfvLoop 0 exC2).2 = (expectedRetMsg, [3]) :: (noRetMsg, [1]) :: t := by
  have h := C2_bodyLengthZero ⟨0, ["f"], 0, 1, 1⟩ ⟨0, ["g"], 0, 3, 1⟩
    [⟨5, [], 0, 2, 1⟩] [⟨1, [], 0, 4, 1⟩] rfl rfl (by simp [isRet])
  simpa [exC2] using h

/-- Claim C9: a declaration followed by one or more commands, none of the
return family, up to the next declaration: besides the two missing-return
diagnostics, every command strictly between the two declarations is flagged
with `Statement does not belong to any function`, because the stored body
length is 0 and the cursor resumes right after the first declaration. -/
theorem C9_floatingAfterMissingReturn (decl decl2 : parsedCommand)
    (body rest : List parsedCommand) (mode : compileModeT)
    (hdecl : decl.opcode = 0) (hdecl2 : decl2.opcode = 0)
    (hne : body ≠ [])
    (hb : ∀ c ∈ body, c.opcode ≠ 0 ∧ ¬ isRet 0 c) :
    (expectedRetMsg, [decl2.lineNum]) ∈
      checkFunctionValidity 0 mode (decl :: (body ++ decl2 :: rest)) ∧
    (noRetMsg, [decl.lineNum]) ∈
      checkFunctionValidity 0 mode (decl :: (body ++ decl2 :: rest)) ∧
    (∀ c ∈ body, (floatingMsg, [c.lineNum]) ∈
      checkFunctionValidity 0 mode (decl :: (body ++ decl2 :: rest))) ∧
    (cfvLoop 0 (decl :: (body ++ decl2 :: rest))).1.head? =
      some ⟨decl.parameters.getD 0 "", decl.lineNum, 0⟩ := by
  have hscan : scanBody 0 (body ++ decl2 :: rest) 1 0 =
      (0, [(expectedRetMsg, [decl2.lineNum])]) :=
    scanBody_noRet_decl 0 decl2 rest hdecl2 body hb 1
  have hp : parseFunction 0 decl (body ++ decl2 :: rest) =
      (⟨decl.parameters.getD 0 "", decl.lineNum, 0⟩,
       [(expectedRetMsg, [decl2.lineNum]), (noRetMsg, [decl.lineNum])]) := by
    simp [parseFunction, hscan]
  have hloop := cfvLoop_cons_decl 0 decl (body ++ decl2 :: rest) hdecl
  rw [hp] at hloop
  simp only [List.drop_zero] at hloop
  have happ := cfvLoop_append_nondecl 0 body (decl2 :: rest)
    (fun c hc => (hb c hc).1)
  rw [happ] at hloop
  have hloop2 : (cfvLoop 0 (decl :: (body ++ decl2 :: rest))).2 =
      (expectedRetMsg, [decl2.lineNum]) :: (noRetMsg, [decl.lineNum]) ::
      (body.map (fun c => (floatingMsg, [c.lineNum])) ++ (cfvLoop 0 (decl2 :: rest)).2) := by
    rw [hloop]; rfl
  have hhead : (cfvLoop 0 (decl :: (body ++ decl2 :: rest))).1.head? =
      some ⟨decl.parameters.getD 0 "", decl.lineNum, 0⟩ := by
    rw [hloop]; rfl
  have hmem : ∀ x ∈ (cfvLoop 0 (decl :: (body ++ decl2 :: rest))).2,
      x ∈ checkFunctionValidity 0 mode (decl :: (body ++ decl2 :: rest)) := by
    intro x hx
    unfold checkFunctionValidity
    exact List.mem_append_left _ (List.mem_append_left _ hx)
  refine ⟨hmem _ ?_, hmem _ ?_, fun c hc => hmem _ ?_, hhead⟩
  · rw [hloop2]; simp
  · rw [hloop2]; simp
  · rw [hloop2]
    simp only [List.mem_cons, List.mem_append]
    exact Or.inr (Or.inr (Or.inl (List.mem_map_of_mem _ hc)))

/-- Witness for C9 at the concrete stream of `C2_counterexample` (one
command between the two declarations). -/
theorem C9_witness :
    (expectedRetMsg, [3]) ∈ checkFunctionValidity 0 compileModeT.objectFile exC2 ∧
    (noRetMsg, [1]) ∈ checkFunctionValidity 0 compileModeT.objectFile exC2 ∧
    (∀ c ∈ [(⟨5, [], 0, 2, 1⟩ : parsedCommand)], (floatingMsg, [c.lineNum]) ∈
      checkFunctionValidity 0 compileModeT.objectFile exC2) ∧
    (cfvLoop 0 exC2).1.head? = some ⟨"f", 1, 0⟩ := by
  have h := C9_floatingAfterMissingReturn ⟨0, ["f"], 0, 1, 1⟩ ⟨0, ["g"], 0, 3, 1⟩
    [⟨5, [], 0, 2, 1⟩] [⟨1, [], 0, 4, 1⟩] compileModeT.objectFile rfl rfl
    (by simp) (by simp [isRet])
  simpa [exC2] using h

/- ### Comparison-label analysis (comparisons.c) -/

def dupLabelMsg : String := "Comparison jump markers cannot be defined twice"

def noMarker1Msg : String := "No comparison jump marker defined for first parameter"

def noMarker2Msg : String := "No comparison jump marker defined for second parameter"

def samePicMsg : String := "\"they\x27re the same picture\" wasn\x27t defined anywhere"

/-- The duplicate-jump-marker check of `checkWhoWouldWinValidity`
(comparisons.c): for every pair `i < j` of label commands with byte-wise
equal parameters, emit `Comparison jump markers cannot be defined twice`
with the later line first and the earlier line second. -/
def dupLabelDiags : List parsedCommand → List Diag
  | [] => []
  | lb :: rest =>
    (rest.filter (fun x => x.parameters.getD 0 "" == lb.parameters.getD 0 "")).map
      (fun x => (dupLabelMsg, [x.lineNum, lb.lineNum]))
      ++ dupLabelDiags rest

/-- The per-comparison flag computation of `checkWhoWouldWinValidity`: one
pass over the label commands, setting `parameter1Defined` /
`parameter2Defined` on a byte-wise match with the first / second parameter
of the comparison. -/
def wwwFlags (labels : List parsedCommand) (c : parsedCommand) : Bool × Bool :=
  labels.foldl
    (fun fl lb =>
      ((fl.1 || (c.parameters.getD 0 "" == lb.parameters.getD 0 "")),
       (fl.2 || (c.parameters.getD 1 "" == lb.parameters.getD 0 ""))))
    (false, false)

/-- The existence check of `checkWhoWouldWinValidity`: for every comparison
in stream order, emit the missing-marker diagnostic for the first and then
for the second parameter when the corresponding flag stayed unset. -/
def wwwMissing (labels : List parsedCommand) : List parsedCommand → List Diag
  | [] => []
  | c :: rest =>
    (if (wwwFlags labels c).1 then [] else [(noMarker1Msg, [c.lineNum])]) ++
    (if (wwwFlags labels c).2 then [] else [(noMarker2Msg, [c.lineNum])]) ++
    wwwMissing labels rest

/-- `checkWhoWouldWinValidity` of comparisons.c for the comparison opcode
`op` (the jump-label opcode is `op + 1`): collect the comparisons and label
declarations in stream order, run the duplicate-marker check, then the
existence check. -/
def checkWhoWouldWinValidity (op : Nat) (l : List parsedCommand) : List Diag :=
  let comparisons := l.filter (fun c => c.opcode == op)
  let comparisonJumpLabels := l.filter (fun c => c.opcode == op + 1)
  dupLabelDiags comparisonJumpLabels ++ wwwMissing comparisonJumpLabels comparisons

/-- `checkTheyreTheSamePictureValidity` of comparisons.c for the comparison
opcode `op`: one pass stores the line number of the most recent occurrence
of the label opcode `op + 1` in `jumpMarkerDefined` (initially 0); when that
variable is still 0 afterwards, a second pass emits the diagnostic at the
line of every occurrence of `op`. -/
def checkTheyreTheSamePictureValidity (op : Nat) (l : List parsedCommand) : List Diag :=
  let jumpMarkerDefined :=
    l.foldl (fun acc c => if c.opcode == op + 1 then c.lineNum else acc) (0 : Int)
  if jumpMarkerDefined == 0 then
    (l.filter (fun c => c.opcode == op)).map (fun c => (samePicMsg, [c.lineNum]))
  else []

/-- The `jumpMarkerDefined` fold is the accumulator when no label occurs. -/
theorem samePic_fold_no_label (op : Nat) (l : List parsedCommand)
    (h : ∀ c ∈ l, c.opcode ≠ op + 1) :
    ∀ acc : Int,
      l.foldl (fun acc c => if c.opcode == op + 1 then c.lineNum else acc) acc = acc := by
  induction l with
  | nil => intro acc; rfl
  | cons c rest ih =>
    intro acc
    simp only [List.foldl_cons]
    rw [if_neg (by simpa using h c (List.mem_cons_self ..))]
    exact ih (fun x hx => h x (List.mem_cons_of_mem _ hx)) acc

/-- When some label occurs and all line numbers are positive, the
`jumpMarkerDefined` fold ends positive. -/
theorem samePic_fold_label_pos (op : Nat) (l : List parsedCommand)
    (hpos : ∀ c ∈ l, 0 < c.lineNum)
    (h : ∃ c ∈ l, c.opcode = op + 1) :
    ∀ acc : Int,
      0 < l.foldl (fun acc c => if c.opcode == op + 1 then c.lineNum else acc) acc := by
  induction l with
  | nil => exact absurd h (by simp)
  | cons c rest ih =>
    intro acc
    simp only [List.foldl_cons]
    by_cases hrest : ∃ x ∈ rest, x.opcode = op + 1
    · exact ih (fun x hx => hpos x (List.mem_cons_of_mem _ hx)) hrest _
    · have hc : c.opcode = op + 1 := by
        rcases h with ⟨x, hx, hox⟩
        rcases List.mem_cons.mp hx with rfl | hx'
        · exact hox
        · exact absurd ⟨x, hx', hox⟩ hrest
      rw [if_pos (by simpa using hc)]
      rw [samePic_fold_no_label op rest (by
        intro x hx hox
        exact hrest ⟨x, hx, hox⟩)]
      exact hpos c (List.mem_cons_self ..)

/-- A positive integer is not boolean-equal to 0. -/
theorem int_pos_not_beq_zero (x : Int) (hx : 0 < x) : ¬ ((x == 0) = true) := by
  simp only [beq_iff_eq]
  omega

/-- Claim C7: provided the stream carries 1-based (hence positive) line
numbers, `checkTheyreTheSamePictureValidity` emits
`"they're the same picture" wasn't defined anywhere` once per occurrence of
the compare opcode, at that occurrence's line, exactly when the label opcode
`op + 1` occurs nowhere; as soon as at least one label occurrence exists
(also several), nothing is emitted. -/
theorem C7_samePicture (op : Nat) (l : List parsedCommand)
    (hpos : ∀ c ∈ l, 0 < c.lineNum) :
    checkTheyreTheSamePictureValidity op l =
      if ∃ c ∈ l, c.opcode = op + 1 then []
      else (l.filter (fun c => c.opcode == op)).map (fun c => (samePicMsg, [c.lineNum])) := by
  unfold checkTheyreTheSamePictureValidity
  by_cases h : ∃ c ∈ l, c.opcode = op + 1
  · rw [if_pos h]
    have := samePic_fold_label_pos op l hpos h 0
    simp only
    rw [if_neg (int_pos_not_beq_zero _ this)]
  · rw [if_neg h]
    have hno : ∀ c ∈ l, c.opcode ≠ op + 1 := by
      intro c hc hoc
      exact h ⟨c, hc, hoc⟩
    simp only
    rw [samePic_fold_no_label op l hno 0]
    simp

/-- Witness for C7: a stream with one comparison and no label (errors
emitted), checked against the theorem at a concrete input. -/
theorem C7_witness :
    checkTheyreTheSamePictureValidity 7
      [⟨7, ["a"], 0, 2, 1⟩, ⟨5, [], 0, 3, 1⟩] =
      (if ∃ c ∈ [(⟨7, ["a"], 0, 2, 1⟩ : parsedCommand), ⟨5, [], 0, 3, 1⟩],
          c.opcode = 8 then []
       else ([(⟨7, ["a"], 0, 2, 1⟩ : parsedCommand), ⟨5, [], 0, 3, 1⟩].filter
          (fun c => c.opcode == 7)).map (fun c => (samePicMsg, [c.lineNum]))) := by
  exact C7_samePicture 7 [⟨7, ["a"], 0, 2, 1⟩, ⟨5, [], 0, 3, 1⟩] (by decide)

/-- The two `parameterDefined` flags computed by the label pass are the
existential checks over the label list. -/
theorem wwwFlags_eq_any (labels : List parsedCommand) (c : parsedCommand) :
    wwwFlags labels c =
      (labels.any (fun lb => c.parameters.getD 0 "" == lb.parameters.getD 0 ""),
       labels.any (fun lb => c.parameters.getD 1 "" == lb.parameters.getD 0 "")) := by
  unfold wwwFlags
  suffices h : ∀ (a b : Bool), labels.foldl
      (fun fl lb =>
        ((fl.1 || (c.parameters.getD 0 "" == lb.parameters.getD 0 "")),
         (fl.2 || (c.parameters.getD 1 "" == lb.parameters.getD 0 "")))) (a, b) =
      (a || labels.any (fun lb => c.parameters.getD 0 "" == lb.parameters.getD 0 ""),
       b || labels.any (fun lb => c.parameters.getD 1 "" == lb.parameters.getD 0 "")) by
    simpa using h false false
  induction labels with
  | nil => intro a b; simp
  | cons lb rest ih =>
    intro a b
    simp only [List.foldl_cons, List.any_cons, ih]
    simp only [Bool.or_assoc]

/-- Every diagnostic of the duplicate-marker check carries
`Comparison jump markers cannot be defined twice`. -/
theorem dupLabelDiags_msgs (labels : List parsedCommand) :
    ∀ x ∈ dupLabelDiags labels, x.1 = dupLabelMsg := by
  induction labels with
  | nil => simp [dupLabelDiags]
  | cons lb rest ih =>
    intro x hx
    simp only [dupLabelDiags, List.mem_append] at hx
    rcases hx with hx | hx
    · obtain ⟨y, _, rfl⟩ := List.mem_map.mp hx
      rfl
    · exact ih x hx

/-- Counting the missing-first-parameter diagnostics emitted by the
existence check: one per comparison whose first flag stayed unset, at the
comparison's line. -/
theorem wwwMissing_count1 (labels : List parsedCommand) (n : Int) :
    ∀ cs : List parsedCommand,
      (wwwMissing labels cs).count (noMarker1Msg, [n]) =
      (cs.filter (fun c => c.lineNum == n && !(wwwFlags labels c).1)).length := by
  intro cs
  induction cs with
  | nil => rfl
  | cons c rest ih =>
    simp only [wwwMissing, List.count_append, ih, List.filter_cons]
    by_cases h1 : (wwwFlags labels c).1 <;>
      by_cases h2 : (wwwFlags labels c).2 <;>
      by_cases hn : c.lineNum = n <;>
      simp [h1, h2, hn, List.count_cons, noMarker1Msg, noMarker2Msg] <;>
      omega

/-- Counting the missing-second-parameter diagnostics analogously. -/
theorem wwwMissing_count2 (labels : List parsedCommand) (n : Int) :
    ∀ cs : List parsedCommand,
      (wwwMissing labels cs).count (noMarker2Msg, [n]) =
      (cs.filter (fun c => c.lineNum == n && !(wwwFlags labels c).2)).length := by
  intro cs
  induction cs with
  | nil => rfl
  | cons c rest ih =>
    simp only [wwwMissing, List.count_append, ih, List.filter_cons]
    by_cases h1 : (wwwFlags labels c).1 <;>
      by_cases h2 : (wwwFlags labels c).2 <;>
      by_cases hn : c.lineNum = n <;>
      simp [h1, h2, hn, List.count_cons, noMarker1Msg, noMarker2Msg] <;>
      omega

/-- Claim C8: `checkWhoWouldWinValidity` emits
`No comparison jump marker defined for first parameter` at line `n` exactly
once per comparison occurrence at line `n` whose first parameter is
byte-wise equal to no label declaration's parameter, and independently the
analogous count holds for the second parameter, so a single comparison can
contribute one diagnostic to each count. -/
theorem C8_whoWouldWin (op : Nat) (l : List parsedCommand) (n : Int) :
    ((checkWhoWouldWinValidity op l).count (noMarker1Msg, [n]) =
      ((l.filter (fun c => c.opcode == op)).filter
        (fun c => c.lineNum == n &&
          !(l.any (fun lb => lb.opcode == op + 1 &&
              (c.parameters.getD 0 "" == lb.parameters.getD 0 ""))))).length) ∧
    ((checkWhoWouldWinValidity op l).count (noMarker2Msg, [n]) =
      ((l.filter (fun c => c.opcode == op)).filter
        (fun c => c.lineNum == n &&
          !(l.any (fun lb => lb.opcode == op + 1 &&
              (c.parameters.getD 1 "" == lb.parameters.getD 0 ""))))).length) := by
  unfold checkWhoWouldWinValidity
  simp only [List.count_append]
  have hdup1 : (dupLabelDiags (l.filter (fun c => c.opcode == op + 1))).count
      (noMarker1Msg, [n]) = 0 := by
    apply List.count_eq_zero.mpr
    intro hmem
    have := dupLabelDiags_msgs _ _ hmem
    simp only at this
    exact absurd this (by decide)
  have hdup2 : (dupLabelDiags (l.filter (fun c => c.opcode == op + 1))).count
      (noMarker2Msg, [n]) = 0 := by
    apply List.count_eq_zero.mpr
    intro hmem
    have := dupLabelDiags_msgs _ _ hmem
    simp only at this
    exact absurd this (by decide)
  rw [hdup1, hdup2, wwwMissing_count1, wwwMissing_count2]
  constructor <;>
  · rw [Nat.zero_add]
    congr 1
    apply List.filter_congr
    intro c _
    rw [wwwFlags_eq_any]
    simp only [List.any_filter]

/- ### Translation (translator.c) -/

/-- Modelled from the spec: the optimisation-level enum of the CompileState
(spec section 3.4: `o_none`, `o_1`, `o_2`, `o_3`, `o_s`, `o42069`); the enum
itself is declared in a header that is not part of src/. -/
inductive optLevel where
  | o_none | o_1 | o_2 | o_3 | o_s | o42069
deriving DecidableEq, Inhabited

/-- Mirrors `struct translatorState` of translator.c: the current function
name for STABS return labels and the `DNLABEL` flag (set when the next
line-label was already emitted by an ignored command). -/
structure translatorState where
  currentFunctionName : String
  DNLABEL : Bool
deriving DecidableEq, Inhabited

/-- `stabs_ignore` of translator.c: a command is ignored by the STABS line
table exactly when its translation template is the literal `int3`. -/
def stabs_ignore (tbl : Nat → command) (opcode : Nat) : Bool :=
  (tbl opcode).translationPattern == "int3"

/-- `stabs_writeLineLabel` of translator.c. -/
def stabs_writeLineLabel (c : parsedCommand) : String :=
  "\t.Lcmd_" ++ toString c.lineNum ++ ":\n"

/-- `stabs_writeLineInfo` of translator.c (`N_SLINE = 68`). -/
def stabs_writeLineInfo (c : parsedCommand) : String :=
  "\t.stabn 68, 0, " ++ toString c.lineNum ++ ", .Lcmd_" ++ toString c.lineNum ++ "\n"

/-- `stabs_writeFunctionEndLabel` of translator.c. -/
def stabs_writeFunctionEndLabel (ts : translatorState) : String :=
  "\t.Lret_" ++ ts.currentFunctionName ++ ":\n"

/-- The template-expansion loops of `translateToAssembly` (translator.c):
each template character `character` satisfying
`character >= '0' && character <= usedParameters + 47` is replaced by the
parameter at index `character - 48`, wrapped in `[`..`]` exactly when
`isPointer == (character - 48) + 1`; every other character is copied. -/
def expandTemplate (entry : command) (pc : parsedCommand) : String :=
  String.join (entry.translationPattern.toList.map (fun character =>
    if 48 ≤ character.toNat && character.toNat ≤ entry.usedParameters + 47 then
      let parameter := pc.parameters.getD (character.toNat - 48) ""
      if pc.isPointer == (character.toNat - 48) + 1 then "[" ++ parameter ++ "]"
      else parameter
    else String.singleton character))

/-- The translated main line written by `translateToAssembly`: the expanded
template, prefixed by one tab exactly when the opcode is not the function
declaration opcode 0, and terminated by the newline of
`fprintf(outputFile, "%s\n", translatedLine)`. -/
def mainLineOut (tbl : Nat → command) (pc : parsedCommand) : String :=
  (if pc.opcode != 0 then "\t" else "") ++ expandTemplate (tbl pc.opcode) pc ++ "\n"

/-- The optimisation-level padding that `translateToAssembly` appends after
the main line. -/
def optPadding : optLevel → String
  | optLevel.o_1 => "\tnop\n"
  | optLevel.o_2 => "\tpush rax\n\tpop rax\n"
  | optLevel.o_3 => "\tmovups [rsp + 8], xmm0\n\tmovups xmm0, [rsp + 8]\n"
  | optLevel.o42069 => "\txor rax, rax\n\tret\n"
  | _ => ""

/-- `translateToAssembly` of translator.c for the command at `index`,
returning the updated translator state and the text written to the output
file, or `none` when the C code would read `commandsArray` out of bounds
(the un-guarded `arrayPointer[index + 1]` in the STABS branch for ignored
commands). In order: the o42069 early return for non-declarations; the
STABS line-label state machine; the expanded main line; the
optimisation-level padding; the STABS function-end label and line info. -/
def translateToAssembly (tbl : Nat → command) (opt : optLevel) (useStabs : Bool)
    (cmds : List parsedCommand) (ts : translatorState) (index : Nat) :
    Option (translatorState × String) :=
  match cmds.get? index with
  | none => none
  | some parsedCommand =>
    if parsedCommand.opcode != 0 && opt == optLevel.o42069 then some (ts, "")
    else
      let stabsStep : Option (translatorState × String) :=
        if useStabs then
          if parsedCommand.opcode == 0 then
            some ({ts with currentFunctionName := parsedCommand.parameters.getD 0 ""}, "")
          else if stabs_ignore tbl parsedCommand.opcode then
            match cmds.get? (index + 1) with
            | none => none
            | some nxt => some ({ts with DNLABEL := true}, stabs_writeLineLabel nxt)
          else if ts.DNLABEL == false then
            some (ts, stabs_writeLineLabel parsedCommand)
          else
            some ({ts with DNLABEL := false}, "")
        else some (ts, "")
      match stabsStep with
      | none => none
      | some (ts1, out1) =>
        let out4 :=
          if useStabs && parsedCommand.opcode != 0 then
            (if 0 < parsedCommand.opcode && parsedCommand.opcode ≤ 3 &&
                (cmds.length == index + 1 ||
                 ((cmds.get? (index + 1)).map (fun c => c.opcode) == some 0))
             then stabs_writeFunctionEndLabel ts1 else "") ++
            (if !(stabs_ignore tbl parsedCommand.opcode)
             then stabs_writeLineInfo parsedCommand else "")
          else ""
        some (ts1, out1 ++ mainLineOut tbl parsedCommand ++ optPadding opt ++ out4)

/-- The command loop of `writeToFile` (translator.c): iterate the indices
`0, 1, ...` over the stream (`n` counts the remaining iterations and is
`cmds.length` at the top-level call); before the translate-check of command
`i`, print the inline `\t.LConfusedStonks: ` prefix when `i` equals the
stream's `randomIndex`; translate the command only when its `translate`
flag is 1. -/
def writeLoopAux (tbl : Nat → command) (opt : optLevel) (useStabs : Bool)
    (cmds : List parsedCommand) (randomIndex : Nat) :
    Nat → translatorState → Nat → Option String
  | 0, _, _ => some ""
  | n + 1, ts, i =>
    let pre := if i == randomIndex then "\t.LConfusedStonks: " else ""
    if (cmds.getD i default).translate == 1 then
      match translateToAssembly tbl opt useStabs cmds ts i with
      | none => none
      | some (ts1, out) =>
        match writeLoopAux tbl opt useStabs cmds randomIndex n ts1 (i + 1) with
        | none => none
        | some s => some (pre ++ out ++ s)
    else
      match writeLoopAux tbl opt useStabs cmds randomIndex n ts (i + 1) with
      | none => none
      | some s => some (pre ++ s)

/-- The whole command loop of `writeToFile`, starting at index 0 with
`cmds.length` iterations. -/
def commandLoopOutput (tbl : Nat → command) (opt : optLevel) (useStabs : Bool)
    (cmds : List parsedCommand) (randomIndex : Nat) (ts : translatorState) :
    Option String :=
  writeLoopAux tbl opt useStabs cmds randomIndex cmds.length ts 0

/-- The `writechar` runtime helper emitted by `writeToFile` (Linux build:
syscall number 1). -/
def writecharText : String :=
  "\n\nwritechar:\n\tpush rcx\n\tpush r11\n\tpush rax\n\tpush rdi\n\tpush rsi\n\tpush rdx\n\tmov rdx, 1\n\tlea rsi, [rip + .LCharacter]\n\tmov rax, 1\n\tsyscall\n\tpop rdx\n\tpop rsi\n\tpop rdi\n\tpop rax\n\tpop r11\n\tpop rcx\n\t\n\tret\n"

/-- The `readchar` runtime helper emitted by `writeToFile` (Linux build:
syscall number 0). -/
def readcharText : String :=
  "\n\nreadchar:\n\tpush rcx\n\tpush r11\n\tpush rax\n\tpush rdi\n\tpush rsi\n\tpush rdx\n\n\tmov rdx, 1\n\tlea rsi, [rip + .LCharacter]\n\tmov rdi, 0\n\tmov rax, 0\n\tsyscall\n\n\tpop rdx\n\tpop rsi\n\tpop rdi\n\tpop rax\n\tpop r11\n\tpop rcx\n\tret\n"

/-- The runtime-helper section of `writeToFile`: the `writechar` and
`readchar` bodies, emitted only when the optimisation level is not o42069. -/
def helperSection (opt : optLevel) : String :=
  if opt != optLevel.o42069 then writecharText ++ readcharText else ""

/-- In-bounds `get?` returns the `getD` value. -/
theorem get?_eq_some_getD (l : List parsedCommand) (i : Nat) (h : i < l.length) :
    l.get? i = some (l.getD i default) := by
  rw [List.getD_eq_getElem?_getD, List.get?_eq_getElem?]
  cases hx : l[i]? with
  | none => rw [List.getElem?_eq_none_iff] at hx; omega
  | some a => rfl

/-- Claim C3: with STABS enabled and an optimisation level other than
o42069, translating a command whose template is exactly `int3` (ignorable)
that sits at the last index of the stream makes the forward-line-label
emission read `commandsArray` at position `size` — out of bounds, modelled
as `none`; and whenever the command has a successor (`index + 1 < size`)
`translateToAssembly` is well defined, so the indexing is in bounds exactly
under the precondition that every such ignorable command has a successor. -/
theorem C3_stabsForwardLabel :
    (∀ (tbl : Nat → command) (opt : optLevel) (cmds : List parsedCommand)
       (ts : translatorState) (i : Nat),
       opt ≠ optLevel.o42069 →
       i + 1 = cmds.length →
       (cmds.getD i default).opcode ≠ 0 →
       (tbl (cmds.getD i default).opcode).translationPattern = "int3" →
       translateToAssembly tbl opt true cmds ts i = none) ∧
    (∀ (tbl : Nat → command) (opt : optLevel) (us : Bool)
       (cmds : List parsedCommand) (ts : translatorState) (i : Nat),
       i + 1 < cmds.length →
       ∃ r, translateToAssembly tbl opt us cmds ts i = some r) := by
  constructor
  · intro tbl opt cmds ts i hopt hlen hop hpat
    have hi : i < cmds.length := by omega
    have hsome := get?_eq_some_getD cmds i hi
    have hnone : cmds.get? (i + 1) = none := List.get?_eq_none.mpr (by omega)
    obtain ⟨c, hceq⟩ : ∃ c, cmds.getD i default = c := ⟨_, rfl⟩
    have hsome' : cmds[i]? = some c := by
      rw [← hceq, ← List.get?_eq_getElem?]; exact hsome
    have hnone' : cmds[i + 1]? = none := by
      rw [← List.get?_eq_getElem?]; exact hnone
    have hb1 : (opt == optLevel.o42069) = false := by simpa using hopt
    have hb2 : c.opcode ≠ 0 := by rw [← hceq]; exact hop
    have hpat' : (tbl c.opcode).translationPattern = "int3" := by
      rw [← hceq]; exact hpat
    have hb3 : stabs_ignore tbl c.opcode = true := by
      unfold stabs_ignore
      rw [hpat']
      decide
    simp [translateToAssembly, hsome', hnone', hb1, hb2, hb3]
  · intro tbl opt us cmds ts i hi
    have hsome := get?_eq_some_getD cmds i (by omega)
    have hsome2 := get?_eq_some_getD cmds (i + 1) hi
    unfold translateToAssembly
    rw [hsome]
    simp only
    by_cases h1 : ((cmds.getD i default).opcode != 0 && opt == optLevel.o42069) = true
    · rw [if_pos h1]; exact ⟨_, rfl⟩
    · rw [if_neg h1]
      by_cases h2 : us = true
      · rw [if_pos h2]
        by_cases h3 : ((cmds.getD i default).opcode == 0) = true
        · rw [if_pos h3]; exact ⟨_, rfl⟩
        · rw [if_neg h3]
          by_cases h4 : stabs_ignore tbl (cmds.getD i default).opcode = true
          · rw [if_pos h4, hsome2]; exact ⟨_, rfl⟩
          · rw [if_neg h4]
            by_cases h5 : (ts.DNLABEL == false) = true
            · rw [if_pos h5]; exact ⟨_, rfl⟩
            · rw [if_neg h5]; exact ⟨_, rfl⟩
      · rw [if_neg h2]; exact ⟨_, rfl⟩

/-- Witness for C3 at a one-command stream (part one: the ignorable command
is last, the read is out of bounds) and a two-command stream (part two: a
successor exists, translation is defined). -/
theorem C3_witness :
    translateToAssembly (fun _ => ⟨"", 0, [], "int3"⟩) optLevel.o_none true
      [⟨9, [], 0, 4, 1⟩] ⟨"", false⟩ 0 = none ∧
    ∃ r, translateToAssembly (fun _ => ⟨"", 0, [], "int3"⟩) optLevel.o_none true
      [⟨9, [], 0, 4, 1⟩, ⟨9, [], 0, 5, 1⟩] ⟨"", false⟩ 0 = some r := by
  constructor
  · exact C3_stabsForwardLabel.1 (fun _ => ⟨"", 0, [], "int3"⟩) optLevel.o_none
      [⟨9, [], 0, 4, 1⟩] ⟨"", false⟩ 0 (by decide) (by decide) (by decide) (by decide)
  · exact C3_stabsForwardLabel.2 (fun _ => ⟨"", 0, [], "int3"⟩) optLevel.o_none true
      [⟨9, [], 0, 4, 1⟩, ⟨9, [], 0, 5, 1⟩] ⟨"", false⟩ 0 (by decide)

/-- The spec-side description of template expansion (spec section 4.4.2
step 3): a character that is a digit of the range `['0', '0' + k)` — i.e.
with code point in `[48, 48 + usedParameters)` — selects the parameter with
index `c - '0'`, wrapped in brackets exactly when `isPointer` equals that
index plus one; all other characters are emitted verbatim. -/
def specTemplateExpansion (entry : command) (pc : parsedCommand) : String :=
  String.join (entry.translationPattern.toList.map (fun c =>
    if 48 ≤ c.toNat ∧ c.toNat < 48 + entry.usedParameters then
      if pc.isPointer = (c.toNat - 48) + 1 then
        "[" ++ pc.parameters.getD (c.toNat - 48) "" ++ "]"
      else pc.parameters.getD (c.toNat - 48) ""
    else String.singleton c))

/-- The C expansion loop agrees with spec-side expansion character by
character. -/
theorem expandTemplate_eq_spec (entry : command) (pc : parsedCommand) :
    expandTemplate entry pc = specTemplateExpansion entry pc := by
  unfold expandTemplate specTemplateExpansion
  congr 1
  apply List.map_congr_left
  intro c _
  by_cases h : 48 ≤ c.toNat ∧ c.toNat < 48 + entry.usedParameters
  · rw [if_pos (by simp; omega), if_pos h]
    by_cases hp : pc.isPointer = (c.toNat - 48) + 1
    · rw [if_pos (by simpa using hp), if_pos hp]
    · rw [if_neg (by simpa using hp), if_neg hp]
  · rw [if_neg (by simp; omega), if_neg h]

/-- Claim C4: the line written for a translated command is the template
expanded character-wise as the spec states it — digits of
`['0', '0' + usedParameters)` select the parameter `c - '0'`, bracketed
exactly when `isPointer = (c - '0') + 1`, everything else verbatim — and it
is prefixed with a single tab if and only if the opcode is not 0. -/
theorem C4_templateExpansion (tbl : Nat → command) (pc : parsedCommand) :
    mainLineOut tbl pc =
      (if pc.opcode = 0 then "" else "\t") ++
        specTemplateExpansion (tbl pc.opcode) pc ++ "\n" := by
  unfold mainLineOut
  rw [expandTemplate_eq_spec]
  by_cases h : pc.opcode = 0
  · rw [if_neg (by simp [h]), if_pos h]
  · rw [if_pos (by simpa using h), if_neg h]

/-- Claim C6: under optimisation level o42069, a command with opcode ≠ 0
produces no output at all (the early return fires before any STABS label);
a command with opcode 0 produces its declaration line immediately followed
by `\txor rax, rax` and `\tret`; and the `writechar` / `readchar` helper
bodies are not emitted. -/
theorem C6_o42069 (tbl : Nat → command) (us : Bool) (cmds : List parsedCommand)
    (ts : translatorState) (i : Nat) (hi : i < cmds.length) :
    ((cmds.getD i default).opcode ≠ 0 →
      translateToAssembly tbl optLevel.o42069 us cmds ts i = some (ts, "")) ∧
    ((cmds.getD i default).opcode = 0 →
      translateToAssembly tbl optLevel.o42069 us cmds ts i =
        some
          ((if us then
              {ts with currentFunctionName := (cmds.getD i default).parameters.getD 0 ""}
            else ts),
           expandTemplate (tbl 0) (cmds.getD i default) ++ "\n" ++
             "\txor rax, rax\n\tret\n")) ∧
    helperSection optLevel.o42069 = "" := by
  obtain ⟨c, hceq⟩ : ∃ c, cmds.getD i default = c := ⟨_, rfl⟩
  have hc : cmds[i]? = some c := by
    rw [← hceq, ← List.get?_eq_getElem?]; exact get?_eq_some_getD cmds i hi
  rw [hceq]
  refine ⟨?_, ?_, by decide⟩
  · intro hop
    simp [translateToAssembly, hc, hop]
  · intro hop
    cases us with
    | false =>
      simp [translateToAssembly, hc, hop, mainLineOut, optPadding,
        String.append_empty]
    | true =>
      simp [translateToAssembly, hc, hop, mainLineOut, optPadding,
        String.append_empty]

/-- Witness for C6 on a stream with one declaration and one return, for both
parts of the conjunction. -/
theorem C6_witness :
    (translateToAssembly (fun _ => ⟨"", 0, [], "0:"⟩) optLevel.o42069 false
      [⟨0, ["main"], 0, 1, 1⟩, ⟨2, [], 0, 2, 1⟩] ⟨"", false⟩ 1 =
        some (⟨"", false⟩, "")) ∧
    (translateToAssembly (fun _ => ⟨"", 0, [], "0:"⟩) optLevel.o42069 false
      [⟨0, ["main"], 0, 1, 1⟩, ⟨2, [], 0, 2, 1⟩] ⟨"", false⟩ 0 =
        some (⟨"", false⟩,
          expandTemplate ((fun _ => (⟨"", 0, [], "0:"⟩ : command)) 0)
            ⟨0, ["main"], 0, 1, 1⟩ ++ "\n" ++ "\txor rax, rax\n\tret\n")) ∧
    helperSection optLevel.o42069 = "" := by
  have h1 := C6_o42069 (fun _ => ⟨"", 0, [], "0:"⟩) false
    [⟨0, ["main"], 0, 1, 1⟩, ⟨2, [], 0, 2, 1⟩] ⟨"", false⟩ 1 (by decide)
  have h0 := C6_o42069 (fun _ => ⟨"", 0, [], "0:"⟩) false
    [⟨0, ["main"], 0, 1, 1⟩, ⟨2, [], 0, 2, 1⟩] ⟨"", false⟩ 0 (by decide)
  refine ⟨?_, ?_, h0.2.2⟩
  · have := h1.1 (by decide)
    simpa using this
  · have := h0.2.1 (by decide)
    simpa using this

/-- With STABS disabled, `translateToAssembly` never touches the stream
beyond the current command, leaves the translator state unchanged and
writes the main line plus padding (nothing under o42069 for a
non-declaration). -/
theorem translateToAssembly_noStabs (tbl : Nat → command) (opt : optLevel)
    (cmds : List parsedCommand) (ts : translatorState) (i : Nat)
    (c : parsedCommand) (hc : cmds[i]? = some c) :
    translateToAssembly tbl opt false cmds ts i =
      some (ts,
        if (c.opcode != 0 && opt == optLevel.o42069) = true then ""
        else mainLineOut tbl c ++ optPadding opt) := by
  by_cases h : (c.opcode != 0 && opt == optLevel.o42069) = true
  · simp [translateToAssembly, hc, h]
  · simp [translateToAssembly, hc, h, String.append_empty]

/-- With STABS disabled the write loop always succeeds. -/
theorem writeLoopAux_noStabs_total (tbl : Nat → command) (opt : optLevel)
    (cmds : List parsedCommand) (rI : Nat) :
    ∀ (n i : Nat) (ts : translatorState), i + n ≤ cmds.length →
      ∃ s, writeLoopAux tbl opt false cmds rI n ts i = some s := by
  intro n
  induction n with
  | zero => intro i ts _; exact ⟨"", rfl⟩
  | succ n ih =>
    intro i ts hle
    have hi : i < cmds.length := by omega
    have hc : cmds[i]? = some (cmds.getD i default) := by
      rw [← List.get?_eq_getElem?]; exact get?_eq_some_getD cmds i hi
    obtain ⟨s, hs⟩ := ih (i + 1) ts (by omega)
    simp only [writeLoopAux]
    by_cases ht : ((cmds.getD i default).translate == 1) = true
    · rw [if_pos ht]
      simp only [translateToAssembly_noStabs tbl opt cmds ts i _ hc, hs]
      exact ⟨_, rfl⟩
    · rw [if_neg ht]
      simp only [hs]
      exact ⟨_, rfl⟩

/-- String-append reshuffle for the head of the loop output. -/
theorem strAppend_head (L M P s : String) :
    (L ++ (M ++ P)) ++ s = (("" ++ L) ++ M) ++ (P ++ s) := by
  rw [String.empty_append, ← String.append_assoc, String.append_assoc (L ++ M)]

/-- String-append reshuffle for a prepended chunk. -/
theorem strAppend_chunk (o A L M B : String) :
    o ++ ((((A ++ L) ++ M) ++ B)) = (((o ++ A) ++ L) ++ M) ++ B := by
  simp only [String.append_assoc]

/-- The inline-label part of claim C5, done on the write loop by downward
induction: if the command at `randomIndex` is reached (`i ≤ randomIndex`),
is translated and is not elided by o42069, then the loop output splits as
earlier output, then the inline `\t.LConfusedStonks: ` prefix, then that
command's main line on the same line. -/
theorem writeLoopAux_label (tbl : Nat → command) (opt : optLevel)
    (cmds : List parsedCommand) (rI : Nat)
    (h2 : (cmds.getD rI default).translate = 1)
    (h3 : ¬(opt = optLevel.o42069 ∧ (cmds.getD rI default).opcode ≠ 0)) :
    ∀ (n i : Nat) (ts : translatorState), i + n = cmds.length → i ≤ rI →
      rI < cmds.length →
      ∃ A B, writeLoopAux tbl opt false cmds rI n ts i =
        some (A ++ "\t.LConfusedStonks: " ++
          mainLineOut tbl (cmds.getD rI default) ++ B) := by
  intro n
  induction n with
  | zero => intro i ts hlen hle h1; omega
  | succ n ih =>
    intro i ts hlen hle h1
    have hi : i < cmds.length := by omega
    have hc : cmds[i]? = some (cmds.getD i default) := by
      rw [← List.get?_eq_getElem?]; exact get?_eq_some_getD cmds i hi
    simp only [writeLoopAux]
    by_cases hir : i = rI
    · subst hir
      have hcond : ((cmds.getD i default).opcode != 0 && opt == optLevel.o42069)
          = false := by
        by_cases hop : (cmds.getD i default).opcode = 0
        · have hb : ((cmds.getD i default).opcode != 0) = false := by
            rw [hop]; decide
          rw [hb, Bool.false_and]
        · have hne : opt ≠ optLevel.o42069 := fun ho => h3 ⟨ho, hop⟩
          have hb : (opt == optLevel.o42069) = false := beq_eq_false_iff_ne.mpr hne
          rw [hb, Bool.and_false]
      obtain ⟨s, hs⟩ := writeLoopAux_noStabs_total tbl opt cmds i n (i + 1) ts (by omega)
      rw [if_pos (by simpa using h2)]
      simp only [translateToAssembly_noStabs tbl opt cmds ts i _ hc, hcond, hs,
        Bool.false_eq_true, if_false, beq_self_eq_true, if_true]
      refine ⟨"", optPadding opt ++ s, ?_⟩
      rw [strAppend_head]
    · have hir' : (i == rI) = false := by simpa using hir
      obtain ⟨A, B, hAB⟩ := ih (i + 1) ts (by omega) (by omega) h1
      by_cases ht : ((cmds.getD i default).translate == 1) = true
      · rw [if_pos ht]
        simp only [translateToAssembly_noStabs tbl opt cmds ts i _ hc, hAB, hir',
          Bool.false_eq_true, if_false, String.empty_append]
        refine ⟨(if ((cmds.getD i default).opcode != 0 && opt == optLevel.o42069) = true
                 then "" else mainLineOut tbl (cmds.getD i default) ++ optPadding opt)
                  ++ A, B, ?_⟩
        rw [strAppend_chunk]
      · rw [if_neg ht]
        simp only [hAB, hir', Bool.false_eq_true, if_false, String.empty_append]
        exact ⟨A, B, rfl⟩

/-- Claim C5 is false on the code: with one command whose `translate` flag
is 0 and `randomIndex = 0 < size`, the loop prints the inline
`\t.LConfusedStonks: ` prefix but then skips the command, so the output is
the bare label: the translated text of the command at `randomIndex`
(nonempty here) appears nowhere in the output, and in the full file the
label is followed by the helper section's newline, i.e. ends up on a line
of its own. -/
theorem C5_counterexample :
    commandLoopOutput (fun _ => ⟨"", 0, [], "sometext"⟩) optLevel.o_none false
      [⟨5, [], 0, 1, 0⟩] 0 ⟨"", false⟩ = some "\t.LConfusedStonks: " ∧
    expandTemplate ((fun _ => (⟨"", 0, [], "sometext"⟩ : command)) 5)
      ⟨5, [], 0, 1, 0⟩ = "sometext" ∧
    ¬ List.IsInfix "sometext".toList "\t.LConfusedStonks: ".toList ∧
    (helperSection optLevel.o_none).toList.head? = some '\n' := by
  refine ⟨by decide, by decide, by decide, by decide⟩

/-- Claim C5, amended: when the command at `randomIndex < size` is
translated (`translate = 1`), STABS is disabled, and the command is not
elided by o42069, the `\t.LConfusedStonks: ` label is emitted immediately
before that command's translated main line, on the same output line (the
label contains no newline and is separated from the line by whitespace);
with `translate = 0` the label instead attaches to whatever output comes
next (`C5_counterexample`). -/
theorem C5_inlineLabel (tbl : Nat → command) (opt : optLevel)
    (cmds : List parsedCommand) (rI : Nat) (ts : translatorState)
    (h1 : rI < cmds.length)
    (h2 : (cmds.getD rI default).translate = 1)
    (h3 : ¬(opt = optLevel.o42069 ∧ (cmds.getD rI default).opcode ≠ 0)) :
    (∃ A B, commandLoopOutput tbl opt false cmds rI ts =
      some (A ++ "\t.LConfusedStonks: " ++
        mainLineOut tbl (cmds.getD rI default) ++ B)) ∧
    ∀ ch ∈ "\t.LConfusedStonks: ".toList, ch ≠ '\n' := by
  refine ⟨?_, by decide⟩
  exact writeLoopAux_label tbl opt cmds rI h2 h3 cmds.length 0 ts (by omega)
    (by omega) h1

/-- Witness for the amended claim C5 at a two-command stream whose second
command carries the random index. -/
theorem C5_witness :
    ((∃ A B, commandLoopOutput (fun _ => ⟨"", 0, [], "mov rax, 5"⟩)
        optLevel.o_none false
        [⟨0, ["main"], 0, 1, 1⟩, ⟨5, [], 0, 2, 1⟩] 1 ⟨"", false⟩ =
      some (A ++ "\t.LConfusedStonks: " ++
        mainLineOut (fun _ => ⟨"", 0, [], "mov rax, 5"⟩)
          ([(⟨0, ["main"], 0, 1, 1⟩ : parsedCommand),
            ⟨5, [], 0, 2, 1⟩].getD 1 default) ++ B)) ∧
     ∀ ch ∈ "\t.LConfusedStonks: ".toList, ch ≠ '\n') := by
  exact C5_inlineLabel (fun _ => ⟨"", 0, [], "mov rax, 5"⟩) optLevel.o_none
    [⟨0, ["main"], 0, 1, 1⟩, ⟨5, [], 0, 2, 1⟩] 1 ⟨"", false⟩ (by decide)
    (by decide) (by decide)

/- ### The CompileState and the analyzers as state transformers (C10) -/

/-- Modelled from the spec: the CompileState (spec sections 3.4 and 6) — the
command stream with its `randomIndex`, the log verbosity, the compile mode,
the optimisation level, the `useStabs` flag, the target-platform selector,
and the diagnostics error counter; the struct itself is declared in a
header that is not part of src/. -/
structure compileState where
  commands : List parsedCommand
  randomIndex : Nat
  logLevel : Nat
  compileMode : compileModeT
  optimisationLevel : optLevel
  useStabs : Bool
  platform : Nat
  errorCount : Nat
deriving DecidableEq, Inhabited

/-- The state effect of `printSemanticError` and
`printSemanticErrorWithExtraLineNumber` (log.h): the only write either of
them performs on the CompileState is the error-counter increment; message
and line numbers go to the log stream. -/
def emitS (cs : compileState) : compileState :=
  {cs with errorCount := cs.errorCount + 1}

/-- `errorCount` raised by `k`. -/
def bumpErrors (cs : compileState) (k : Nat) : compileState :=
  {cs with errorCount := cs.errorCount + k}

/-- The scanning loop of `parseFunction`, threading the CompileState it
mutates through `printSemanticError`. -/
def scanBodyS (d : Nat) : List parsedCommand → Nat → Nat → compileState →
    Nat × compileState
  | [], _, fEnd, cs => (fEnd, cs)
  | c :: rest, index, fEnd, cs =>
    if c.opcode == d then
      (fEnd, if fEnd == 0 then emitS cs else cs)
    else if d < c.opcode && c.opcode ≤ d + 3 then
      scanBodyS d rest (index + 1) index cs
    else
      scanBodyS d rest (index + 1) fEnd cs

/-- `parseFunction` as a state transformer. -/
def parseFunctionS (d : Nat) (functionStart : parsedCommand)
    (tail : List parsedCommand) (cs : compileState) : function × compileState :=
  let s := scanBodyS d tail 1 0 cs
  (⟨functionStart.parameters.getD 0 "", functionStart.lineNum, s.1⟩,
   if s.1 == 0 then emitS s.2 else s.2)

/-- The `checkFunctionValidity` walk as a state transformer. -/
def cfvLoopS (d : Nat) : List parsedCommand → compileState →
    List function × compileState
  | [], cs => ([], cs)
  | c :: rest, cs =>
    if c.opcode == d then
      let p := parseFunctionS d c rest cs
      let nxt := cfvLoopS d (rest.drop p.1.numberOfCommands) p.2
      (p.1 :: nxt.1, nxt.2)
    else
      let nxt := cfvLoopS d rest (emitS cs)
      (nxt.1, nxt.2)
termination_by l => l.length
decreasing_by
  · simp; omega
  · simp

/-- The duplicate-name loops of `checkFunctionValidity` as a state
transformer. -/
def dupDiagsS : List function → compileState → compileState
  | [], cs => cs
  | f :: rest, cs =>
    dupDiagsS rest
      ((rest.filter (fun g => g.name == f.name)).foldl (fun s _ => emitS s) cs)

/-- `checkFunctionValidity` as a state transformer: it reads the command
stream and the compile mode from the CompileState and only ever writes the
error counter (through `emitS`). -/
def checkFunctionValidityS (d : Nat) (cs : compileState) : compileState :=
  let r := cfvLoopS d cs.commands cs
  let cs2 := dupDiagsS r.1 r.2
  if cs2.compileMode == compileModeT.executable &&
      !(r.1.any (fun f => f.name == "main"))
  then emitS cs2 else cs2

/-- The duplicate-marker loops of `checkWhoWouldWinValidity` as a state
transformer. -/
def dupLabelDiagsS : List parsedCommand → compileState → compileState
  | [], cs => cs
  | lb :: rest, cs =>
    dupLabelDiagsS rest
      ((rest.filter
          (fun x => x.parameters.getD 0 "" == lb.parameters.getD 0 "")).foldl
        (fun s _ => emitS s) cs)

/-- The existence check of `checkWhoWouldWinValidity` as a state
transformer. -/
def wwwMissingS (labels : List parsedCommand) :
    List parsedCommand → compileState → compileState
  | [], cs => cs
  | c :: rest, cs =>
    let cs1 := if (wwwFlags labels c).1 then cs else emitS cs
    let cs2 := if (wwwFlags labels c).2 then cs1 else emitS cs1
    wwwMissingS labels rest cs2

/-- `checkWhoWouldWinValidity` as a state transformer. -/
def checkWhoWouldWinValidityS (op : Nat) (cs : compileState) : compileState :=
  wwwMissingS (cs.commands.filter (fun c => c.opcode == op + 1))
    (cs.commands.filter (fun c => c.opcode == op))
    (dupLabelDiagsS (cs.commands.filter (fun c => c.opcode == op + 1)) cs)

/-- `checkTheyreTheSamePictureValidity` as a state transformer. -/
def checkTheyreTheSamePictureValidityS (op : Nat) (cs : compileState) :
    compileState :=
  let jumpMarkerDefined :=
    cs.commands.foldl
      (fun acc c => if c.opcode == op + 1 then c.lineNum else acc) (0 : Int)
  if jumpMarkerDefined == 0 then
    (cs.commands.filter (fun c => c.opcode == op)).foldl (fun s _ => emitS s) cs
  else cs

theorem bumpErrors_zero (cs : compileState) : bumpErrors cs 0 = cs := by
  simp [bumpErrors]

theorem bumpErrors_bump (cs : compileState) (a b : Nat) :
    bumpErrors (bumpErrors cs a) b = bumpErrors cs (a + b) := by
  simp [bumpErrors, Nat.add_assoc]

theorem emitS_eq_bump (cs : compileState) : emitS cs = bumpErrors cs 1 := rfl

theorem foldl_emitS {α : Type} (l : List α) :
    ∀ cs : compileState, l.foldl (fun s _ => emitS s) cs =
      bumpErrors cs l.length := by
  induction l with
  | nil => intro cs; simp [bumpErrors_zero]
  | cons a rest ih =>
    intro cs
    rw [List.foldl_cons, ih]
    simp [emitS, bumpErrors]
    omega

/-- The stateful body scan performs exactly the error-counter increments of
the pure scan's diagnostics. -/
theorem scanBodyS_link (d : Nat) :
    ∀ (l : List parsedCommand) (i f : Nat) (cs : compileState),
      scanBodyS d l i f cs =
        ((scanBody d l i f).1, bumpErrors cs (scanBody d l i f).2.length) := by
  intro l
  induction l with
  | nil => intro i f cs; simp [scanBodyS, scanBody, bumpErrors_zero]
  | cons c rest ih =>
    intro i f cs
    by_cases h1 : (c.opcode == d) = true
    · by_cases h2 : (f == 0) = true <;>
        simp [scanBodyS, scanBody, h1, h2, emitS_eq_bump, bumpErrors_zero]
    · by_cases h2 : (decide (d < c.opcode) && decide (c.opcode ≤ d + 3)) = true <;>
        simp [scanBodyS, scanBody, h1, h2, ih]

/-- `parseFunctionS` against `parseFunction`. -/
theorem parseFunctionS_link (d : Nat) (functionStart : parsedCommand)
    (tail : List parsedCommand) (cs : compileState) :
    parseFunctionS d functionStart tail cs =
      ((parseFunction d functionStart tail).1,
       bumpErrors cs (parseFunction d functionStart tail).2.length) := by
  unfold parseFunctionS parseFunction
  rw [scanBodyS_link]
  by_cases h : ((scanBody d tail 1 0).1 == 0) = true <;>
    simp [h, emitS_eq_bump, bumpErrors_bump, bumpErrors_zero]

/-- The stateful `checkFunctionValidity` walk against the pure one. -/
theorem cfvLoopS_link (d : Nat) :
    ∀ (n : Nat) (l : List parsedCommand), l.length ≤ n →
      ∀ cs : compileState, cfvLoopS d l cs =
        ((cfvLoop d l).1, bumpErrors cs (cfvLoop d l).2.length) := by
  intro n
  induction n with
  | zero =>
    intro l hl cs
    have : l = [] := List.length_eq_zero.mp (by omega)
    subst this
    simp [cfvLoopS, cfvLoop, bumpErrors_zero]
  | succ n ih =>
    intro l hl cs
    cases l with
    | nil => simp [cfvLoopS, cfvLoop, bumpErrors_zero]
    | cons c rest =>
      by_cases hop : (c.opcode == d) = true
      · have hlen : (rest.drop (parseFunction d c rest).1.numberOfCommands).length ≤ n := by
          simp only [List.length_drop, List.length_cons] at *
          omega
        have hS := parseFunctionS_link d c rest cs
        have hrec := ih _ hlen (bumpErrors cs (parseFunction d c rest).2.length)
        simp [cfvLoopS, cfvLoop, hop, hS, hrec, bumpErrors_bump]
      · have hlen : rest.length ≤ n := by
          simp only [List.length_cons] at hl
          omega
        have hrec := ih _ hlen (emitS cs)
        rw [emitS_eq_bump] at hrec
        simp [cfvLoopS, cfvLoop, hop, hrec, emitS_eq_bump, bumpErrors_bump,
          Nat.add_comm]

/-- The stateful duplicate-name check against the pure one. -/
theorem dupDiagsS_link :
    ∀ (fs : List function) (cs : compileState),
      dupDiagsS fs cs = bumpErrors cs (dupDiags fs).length := by
  intro fs
  induction fs with
  | nil => intro cs; simp [dupDiagsS, dupDiags, bumpErrors_zero]
  | cons f rest ih =>
    intro cs
    simp [dupDiagsS, dupDiags, foldl_emitS, ih, bumpErrors_bump]

/-- `checkFunctionValidityS` only raises the error counter, by the number
of diagnostics of the pure `checkFunctionValidity`. -/
theorem checkFunctionValidityS_link (d : Nat) (cs : compileState) :
    checkFunctionValidityS d cs =
      bumpErrors cs (checkFunctionValidity d cs.compileMode cs.commands).length := by
  unfold checkFunctionValidityS checkFunctionValidity
  rw [cfvLoopS_link d cs.commands.length cs.commands (by omega)]
  simp only [dupDiagsS_link]
  have hmode : (bumpErrors (bumpErrors cs (cfvLoop d cs.commands).2.length)
      (dupDiags (cfvLoop d cs.commands).1).length).compileMode = cs.compileMode := rfl
  by_cases h : (cs.compileMode == compileModeT.executable &&
      !((cfvLoop d cs.commands).1.any (fun f => f.name == "main"))) = true
  · rw [if_pos (by rw [hmode]; exact h), if_pos h]
    simp [emitS_eq_bump, bumpErrors_bump, Nat.add_assoc]
  · rw [if_neg (by rw [hmode]; exact h), if_neg h]
    simp [bumpErrors_bump]

/-- The stateful duplicate-marker check against the pure one. -/
theorem dupLabelDiagsS_link :
    ∀ (labels : List parsedCommand) (cs : compileState),
      dupLabelDiagsS labels cs = bumpErrors cs (dupLabelDiags labels).length := by
  intro labels
  induction labels with
  | nil => intro cs; simp [dupLabelDiagsS, dupLabelDiags, bumpErrors_zero]
  | cons lb rest ih =>
    intro cs
    simp [dupLabelDiagsS, dupLabelDiags, foldl_emitS, ih, bumpErrors_bump]

/-- The stateful existence check against the pure one. -/
theorem wwwMissingS_link (labels : List parsedCommand) :
    ∀ (cs' : List parsedCommand) (cs : compileState),
      wwwMissingS labels cs' cs = bumpErrors cs (wwwMissing labels cs').length := by
  intro cs'
  induction cs' with
  | nil => intro cs; simp [wwwMissingS, wwwMissing, bumpErrors_zero]
  | cons c rest ih =>
    intro cs
    by_cases h1 : (wwwFlags labels c).1 <;> by_cases h2 : (wwwFlags labels c).2 <;>
      simp [wwwMissingS, wwwMissing, h1, h2, ih, emitS_eq_bump, bumpErrors_bump,
        Nat.add_comm, Nat.add_assoc, Nat.add_left_comm]

/-- `checkWhoWouldWinValidityS` only raises the error counter, by the
number of diagnostics of the pure `checkWhoWouldWinValidity`. -/
theorem checkWhoWouldWinValidityS_link (op : Nat) (cs : compileState) :
    checkWhoWouldWinValidityS op cs =
      bumpErrors cs (checkWhoWouldWinValidity op cs.commands).length := by
  unfold checkWhoWouldWinValidityS checkWhoWouldWinValidity
  rw [dupLabelDiagsS_link, wwwMissingS_link]
  simp [bumpErrors_bump, List.length_append]

/-- `checkTheyreTheSamePictureValidityS` only raises the error counter, by
the number of diagnostics of the pure analyzer. -/
theorem checkTheyreTheSamePictureValidityS_link (op : Nat) (cs : compileState) :
    checkTheyreTheSamePictureValidityS op cs =
      bumpErrors cs (checkTheyreTheSamePictureValidity op cs.commands).length := by
  unfold checkTheyreTheSamePictureValidityS checkTheyreTheSamePictureValidity
  by_cases h : ((cs.commands.foldl
      (fun acc c => if c.opcode == op + 1 then c.lineNum else acc) (0 : Int)) == 0) = true
  · rw [if_pos h, if_pos h, foldl_emitS]
    simp
  · rw [if_neg h, if_neg h]
    simp [bumpErrors_zero]

/-- Claim C10: running the three analyzers in sequence leaves the command
stream and every other field of the CompileState unchanged; the only
mutation is the error counter, which rises by the total number of emitted
diagnostics. No analyzer mutates any command. -/
theorem C10_frame (cs : compileState) (d op1 op2 : Nat) :
    (checkTheyreTheSamePictureValidityS op2
      (checkWhoWouldWinValidityS op1 (checkFunctionValidityS d cs))).commands
        = cs.commands ∧
    (checkTheyreTheSamePictureValidityS op2
      (checkWhoWouldWinValidityS op1 (checkFunctionValidityS d cs))).randomIndex
        = cs.randomIndex ∧
    (checkTheyreTheSamePictureValidityS op2
      (checkWhoWouldWinValidityS op1 (checkFunctionValidityS d cs))).logLevel
        = cs.logLevel ∧
    (checkTheyreTheSamePictureValidityS op2
      (checkWhoWouldWinValidityS op1 (checkFunctionValidityS d cs))).compileMode
        = cs.compileMode ∧
    (checkTheyreTheSamePictureValidityS op2
      (checkWhoWouldWinValidityS op1 (checkFunctionValidityS d cs))).optimisationLevel
        = cs.optimisationLevel ∧
    (checkTheyreTheSamePictureValidityS op2
      (checkWhoWouldWinValidityS op1 (checkFunctionValidityS d cs))).useStabs
        = cs.useStabs ∧
    (checkTheyreTheSamePictureValidityS op2
      (checkWhoWouldWinValidityS op1 (checkFunctionValidityS d cs))).platform
        = cs.platform ∧
    (checkTheyreTheSamePictureValidityS op2
      (checkWhoWouldWinValidityS op1 (checkFunctionValidityS d cs))).errorCount
        = cs.errorCount +
          ((checkFunctionValidity d cs.compileMode cs.commands).length +
           (checkWhoWouldWinValidity op1 cs.commands).length +
           (checkTheyreTheSamePictureValidity op2 cs.commands).length) := by
  rw [checkFunctionValidityS_link, checkWhoWouldWinValidityS_link,
    checkTheyreTheSamePictureValidityS_link]
  simp [bumpErrors, bumpErrors_bump]
  omega
